import Mathlib

/-!
Verification of the iterative reasoning and graph-exploration engine of the
graph-rag-agent repository.  Each Python component relevant to the claims is
shallowly embedded as executable Lean definitions: Python floats become `ℚ`,
Python dicts (insertion-ordered) become association lists, Python sets become
membership-checked lists, and injected collaborators (the graph-query
function, the LLM, the JSON parser, the clock) become explicit function
parameters.  Incidental state that no claim mentions (timestamps, metadata
dicts, log output) is elided.
-/

namespace GraphRag

/-- Python's `needle in haystack` substring test on strings, via character
lists: some suffix of the haystack has the needle as a prefix.  The empty
needle occurs in every string, as in Python. -/
def strOccursIn (needle haystack : String) : Bool :=
  haystack.toList.tails.any (fun t => needle.toList.isPrefixOf t)

/-- Split a character list at every separator character, keeping empty
fragments (the semantics of `String.split`). -/
def listSplit (p : Char → Bool) : List Char → List (List Char)
  | [] => [[]]
  | c :: cs =>
    match listSplit p cs with
    | [] => [[c]]
    | g :: gs => if p c then [] :: g :: gs else (c :: g) :: gs

/-- Python's `str.split()` with no separator: split on runs of whitespace and
drop empty fragments. -/
def pySplit (s : String) : List String :=
  ((listSplit (fun c => c.isWhitespace) s.toList).map String.mk).filter (fun w => w ≠ "")

/-- Python's `str.strip()`: drop leading and trailing whitespace. -/
def pyStrip (s : String) : String :=
  String.mk (((s.toList.dropWhile Char.isWhitespace).reverse.dropWhile
    Char.isWhitespace).reverse)

/-- Python's `str.lower()`, character by character. -/
def pyLower (s : String) : String :=
  String.mk (s.toList.map Char.toLower)

/-! ## Evidence tracker (src/search_new/reasoning/core/evidence_tracker.py)

`Evidence`, `ReasoningStep` and `EvidenceChain` mirror the dataclasses; the
`evidence_items` dict becomes an association list in insertion order.  The
tracker's configuration fields are gathered in `EvidenceConfig`
(defaults from src/search_new/config/reasoning_config.py, `EvidenceConfig`). -/

structure Evidence where
  evidenceId : String
  sourceId : String
  content : String
  sourceType : String
  relevanceScore : ℚ
  confidenceScore : ℚ
  deriving Repr, DecidableEq

structure ReasoningStep where
  stepId : String
  description : String
  evidenceIds : List String
  reasoningType : String
  confidence : ℚ
  deriving Repr, DecidableEq

structure EvidenceChain where
  chainId : String
  query : String
  reasoningSteps : List ReasoningStep
  evidenceItems : List (String × Evidence)
  deriving Repr, DecidableEq

structure EvidenceConfig where
  maxEvidenceItems : ℕ
  relevanceThreshold : ℚ
  enableValidation : Bool
  enableDedup : Bool
  deriving Repr, DecidableEq

/-- Defaults of `EvidenceConfig` in reasoning_config.py:
`max_evidence_per_step = 10`, `evidence_relevance_threshold = 0.7`,
`enable_evidence_validation = True`, `evidence_deduplication = True`. -/
def defaultEvidenceConfig : EvidenceConfig :=
  { maxEvidenceItems := 10, relevanceThreshold := 7/10,
    enableValidation := true, enableDedup := true }

/-- Models `hashlib.md5(f"{source_id}:{content[:50]}".encode()).hexdigest()[:10]`:
a deterministic fingerprint of the source id and the first 50 characters of
the content.  The embedding keeps the pair itself (separated by a colon) as
the fingerprint; like the md5 digest it is a function of exactly
`(source_id, content[:50])`, and no theorem relies on any property the real
digest lacks. -/
def evidenceIdOf (sourceId content : String) : String :=
  sourceId ++ ":" ++ (content.take 50)

/-- `EvidenceTracker._validate_evidence`: non-empty content of at least 10
characters after stripping, confidence at least 0.5, and content (lowercased)
free of the hard-coded uncertainty markers. -/
def validateEvidence (ev : Evidence) : Bool :=
  if ev.content = "" then false
  else if (pyStrip ev.content).length < 10 then false
  else if ev.confidenceScore < 1/2 then false
  else if ["错误", "不确定", "可能错误"].any
      (fun w => strOccursIn w (pyLower ev.content)) then false
  else true

/-- One step of the scan in
`EvidenceTracker._remove_least_relevant_evidence`: `min_relevance` starts at
infinity, so the first item always becomes the candidate, and later items
replace it only on a strictly smaller `relevance_score`. -/
def leastScan (acc : Option (String × Evidence)) (p : String × Evidence) :
    Option (String × Evidence) :=
  match acc with
  | none => some p
  | some q => if p.2.relevanceScore < q.2.relevanceScore then some p else some q

/-- The id chosen by the scan in
`EvidenceTracker._remove_least_relevant_evidence`. -/
def findLeastRelevantId (items : List (String × Evidence)) : Option String :=
  (items.foldl leastScan none).map (fun p => p.1)

/-- `EvidenceTracker._remove_least_relevant_evidence`: on a non-empty item
map, delete the minimum-relevance entry (guarded by Python truthiness of the
id) and `list.remove` its id from each reasoning step that holds it. -/
def removeLeastRelevant (chain : EvidenceChain) : EvidenceChain :=
  if chain.evidenceItems = [] then chain
  else
    match findLeastRelevantId chain.evidenceItems with
    | none => chain
    | some leastId =>
      if leastId = "" then chain
      else
        { chain with
          evidenceItems := chain.evidenceItems.eraseP (fun p => p.1 == leastId),
          reasoningSteps := chain.reasoningSteps.map
            (fun st => { st with evidenceIds := st.evidenceIds.erase leastId }) }

/-- Python dict assignment `chain.evidence_items[id] = ev`: replace in place
when the key exists, append otherwise. -/
def upsertItem (items : List (String × Evidence)) (id : String) (ev : Evidence) :
    List (String × Evidence) :=
  if items.any (fun p => p.1 == id) then
    items.map (fun p => if p.1 == id then (id, ev) else p)
  else items ++ [(id, ev)]

/-- `EvidenceTracker._associate_evidence_to_step`: append the evidence id to
the first step with the given step id, unless already present (the loop
breaks after the first match). -/
def associateEvidenceToStep :
    List ReasoningStep → String → String → List ReasoningStep
  | [], _, _ => []
  | st :: rest, stepId, evidenceId =>
    if st.stepId = stepId then
      (if evidenceId ∈ st.evidenceIds then st
       else { st with evidenceIds := st.evidenceIds ++ [evidenceId] }) :: rest
    else st :: associateEvidenceToStep rest stepId evidenceId

/-- `EvidenceTracker.add_evidence` acting on the current chain.  Returns the
evidence id (empty string on rejection) together with the updated chain.
The branch order mirrors the source: dedup check, relevance threshold,
capacity eviction, quality validation, insertion, step association. -/
def addEvidence (cfg : EvidenceConfig) (chain : EvidenceChain)
    (sourceId content sourceType : String) (stepId : Option String)
    (relevanceScore confidenceScore : ℚ) : String × EvidenceChain :=
  let id := evidenceIdOf sourceId content
  if cfg.enableDedup ∧ chain.evidenceItems.any (fun p => p.1 == id) then
    (id, chain)
  else if relevanceScore < cfg.relevanceThreshold then ("", chain)
  else
    let chain1 :=
      if cfg.maxEvidenceItems ≤ chain.evidenceItems.length then
        removeLeastRelevant chain
      else chain
    let ev : Evidence :=
      { evidenceId := id, sourceId := sourceId, content := content,
        sourceType := sourceType, relevanceScore := relevanceScore,
        confidenceScore := confidenceScore }
    if cfg.enableValidation ∧ ¬ validateEvidence ev then ("", chain1)
    else
      let chain2 := { chain1 with evidenceItems := upsertItem chain1.evidenceItems id ev }
      let chain3 :=
        match stepId with
        | some sid => { chain2 with
            reasoningSteps := associateEvidenceToStep chain2.reasoningSteps sid id }
        | none => chain2
      (id, chain3)

/-- `EvidenceTracker.add_reasoning_step`: appends a step whose id is
`step_<n+1>`; steps are never deleted. -/
def addReasoningStep (chain : EvidenceChain) (description reasoningType : String)
    (confidence : ℚ) : String × EvidenceChain :=
  let sid := "step_" ++ toString (chain.reasoningSteps.length + 1)
  (sid,
    { chain with reasoningSteps := chain.reasoningSteps ++
        [{ stepId := sid, description := description, evidenceIds := [],
           reasoningType := reasoningType, confidence := confidence }] })

/-- One mutating call on the tracker's current chain. -/
inductive TrackerOp where
  | addEv (sourceId content sourceType : String) (stepId : Option String)
      (relevanceScore confidenceScore : ℚ)
  | addStep (description reasoningType : String) (confidence : ℚ)
  deriving Repr

/-- Apply one tracker operation to the current chain. -/
def applyTrackerOp (cfg : EvidenceConfig) (chain : EvidenceChain) :
    TrackerOp → EvidenceChain
  | .addEv src content stype sid rel conf =>
    (addEvidence cfg chain src content stype sid rel conf).2
  | .addStep descr rtype conf =>
    (addReasoningStep chain descr rtype conf).2

/-- The chain freshly produced by `create_evidence_chain(query)`. -/
def emptyChain (query : String) : EvidenceChain :=
  { chainId := "chain_0", query := query, reasoningSteps := [], evidenceItems := [] }

/-- The chain after a sequence of tracker calls on a fresh chain. -/
def runTrackerOps (cfg : EvidenceConfig) (query : String) (ops : List TrackerOp) :
    EvidenceChain :=
  ops.foldl (applyTrackerOp cfg) (emptyChain query)

/-! ## Chained exploration (src/search_new/reasoning/search/exploration.py)

One exploration path (the one produced by `start_exploration`) together with
the component-level configuration and the global `visited_nodes` set.  The
injected `graph_query_func` is modelled by two oracles, one per Cypher query
shape: `gqEntity entity_id limit` for the entity-neighbour query and
`gqDocument doc_id limit` for the document-entity query; each returns the
result rows.  The parent `children_ids` bookkeeping, timestamps and log
output are elided; no claim mentions them. -/

structure ExplorationNode where
  nodeId : String
  nodeType : String
  content : String
  relevanceScore : ℚ
  depth : ℕ
  parentId : Option String
  deriving Repr, DecidableEq

structure ExplorationPath where
  pathId : String
  query : String
  nodes : List ExplorationNode
  status : String
  deriving Repr, DecidableEq

/-- One result row of the injected graph-query function: `id`, optional
`description` and optional `relevance` (readings `result.get("description",
result["id"])` and `float(result.get("relevance", 0.5))`). -/
structure GraphRow where
  id : String
  description : Option String
  relevance : Option ℚ
  deriving Repr, DecidableEq

structure ExplorationState where
  maxSteps : ℕ
  explorationWidth : ℕ
  relevanceThreshold : ℚ
  decayFactor : ℚ
  path : ExplorationPath
  visitedNodes : List String
  deriving Repr, DecidableEq

/-- Result of `explore_next_step` (the fields the claims mention). -/
structure ExploreResult where
  status : String
  newNodesCount : ℕ
  currentDepth : ℕ
  deriving Repr, DecidableEq

/-- `ChainedExploration.start_exploration`: the seed entities become depth-0
entity nodes with relevance 1 and are marked visited; the path starts
`active`. -/
def startExploration (maxSteps explorationWidth : ℕ)
    (relevanceThreshold decayFactor : ℚ)
    (query : String) (seedEntities : List String) : ExplorationState :=
  { maxSteps := maxSteps, explorationWidth := explorationWidth,
    relevanceThreshold := relevanceThreshold, decayFactor := decayFactor,
    path :=
      { pathId := "path_0", query := query,
        nodes := seedEntities.map (fun e =>
          { nodeId := e, nodeType := "entity", content := e,
            relevanceScore := 1, depth := 0, parentId := none }),
        status := "active" },
    visitedNodes := seedEntities }

/-- `max((node.depth for node in path.nodes), default=0)`. -/
def pathMaxDepth (nodes : List ExplorationNode) : ℕ :=
  nodes.foldr (fun n acc => max n.depth acc) 0

/-- `ChainedExploration._explore_neighbors`: for an entity node query its
`RELATED` neighbours with `limit = exploration_width * 2`, for a document
node query its chunk entities with `limit = exploration_width`; rows already
in `visited_nodes` are dropped.  The constructed neighbour nodes keep the
dataclass default `depth = 0` — the depth is assigned only later, in
`explore_next_step`.  Other node types yield no neighbours. -/
def exploreNeighbors (explorationWidth : ℕ) (visitedNodes : List String)
    (gqEntity gqDocument : String → ℕ → List GraphRow)
    (node : ExplorationNode) : List ExplorationNode :=
  let build : List GraphRow → List ExplorationNode := fun rows =>
    (rows.filter (fun r => r.id ∉ visitedNodes)).map (fun r =>
      { nodeId := r.id, nodeType := "entity",
        content := r.description.getD r.id,
        relevanceScore := r.relevance.getD (1/2),
        depth := 0, parentId := some node.nodeId })
  if node.nodeType = "entity" then
    build (gqEntity node.nodeId (explorationWidth * 2))
  else if node.nodeType = "document" then
    build (gqDocument node.nodeId explorationWidth)
  else []

/-- Stable insertion of a node into a list sorted by descending relevance:
the node goes after every earlier node with an equal or larger score.  A
stable sort is uniquely determined by its comparator, so folding this
insertion models Python's stable `sort(key=..., reverse=True)`. -/
def insertByRelevanceDesc (x : ExplorationNode) :
    List ExplorationNode → List ExplorationNode
  | [] => [x]
  | y :: ys =>
    if y.relevanceScore ≤ x.relevanceScore ∧ y.relevanceScore ≠ x.relevanceScore
    then x :: y :: ys
    else y :: insertByRelevanceDesc x ys

/-- Stable descending sort by `relevance_score`. -/
def sortByRelevanceDesc : List ExplorationNode → List ExplorationNode
  | [] => []
  | x :: xs => insertByRelevanceDesc x (sortByRelevanceDesc xs)

/-- `ChainedExploration._filter_and_rank_nodes`: drop nodes below the
relevance threshold, rescore each survivor as
`0.7 * raw + 0.3 * (overlap / |query words|)` and then multiply by
`decay_factor ** node.depth` (the node's *current* depth field, still 0 for
freshly built neighbours), and sort by descending score.  When the query
splits into no words and at least one node survived the threshold filter,
the division raises `ZeroDivisionError` and the handler returns the input
list unchanged. -/
def filterAndRankNodes (relevanceThreshold decayFactor : ℚ) (query : String)
    (nodes : List ExplorationNode) : List ExplorationNode :=
  let filtered := nodes.filter (fun n => relevanceThreshold ≤ n.relevanceScore)
  let queryWords := pySplit (pyLower query)
  if filtered ≠ [] ∧ queryWords = [] then nodes
  else
    let scored := filtered.map (fun n =>
      let contentLower := pyLower n.content
      let keywordScore : ℚ :=
        ((queryWords.filter (fun w => strOccursIn w contentLower)).length : ℚ)
      let combined := n.relevanceScore * (7/10) +
        (keywordScore / (queryWords.length : ℚ)) * (3/10)
      { n with relevanceScore := combined * decayFactor ^ n.depth })
    sortByRelevanceDesc scored

/-- `ChainedExploration.explore_next_step` on the current path.  Returns the
status dict (as `ExploreResult`) and the updated state.  `completed` is
returned only from the depth check at the top; an expansion that finds no new
nodes still returns `continue` (with `new_nodes_count = 0`), and an empty
node list yields the `error` branch. -/
def exploreNextStep (gqEntity gqDocument : String → ℕ → List GraphRow)
    (s : ExplorationState) : ExploreResult × ExplorationState :=
  let path := s.path
  let currentDepth := pathMaxDepth path.nodes
  if s.maxSteps ≤ currentDepth then
    ({ status := "completed", newNodesCount := 0, currentDepth := currentDepth },
     { s with path := { path with status := "completed" } })
  else
    let currentNodes := path.nodes.filter (fun n => n.depth == currentDepth)
    if currentNodes = [] then
      ({ status := "error", newNodesCount := 0, currentDepth := currentDepth }, s)
    else
      let newNodes := currentNodes.foldl
        (fun acc n =>
          acc ++ exploreNeighbors s.explorationWidth s.visitedNodes gqEntity gqDocument n)
        []
      let filtered := filterAndRankNodes s.relevanceThreshold s.decayFactor path.query newNodes
      let limited := filtered.take s.explorationWidth
      let placed := limited.map (fun n => { n with depth := currentDepth + 1 })
      ({ status := "continue", newNodesCount := limited.length,
         currentDepth := currentDepth + 1 },
       { s with
         path := { path with nodes := path.nodes ++ placed },
         visitedNodes := s.visitedNodes ++ placed.map (fun n => n.nodeId) })

/-- The statuses of `count` successive `explore_next_step` calls. -/
def exploreStatuses (gqEntity gqDocument : String → ℕ → List GraphRow) :
    ℕ → ExplorationState → List String
  | 0, _ => []
  | n + 1, s =>
    let r := exploreNextStep gqEntity gqDocument s
    r.1.status :: exploreStatuses gqEntity gqDocument n r.2

/-- A graph-query function describing a graph in which the seed entity has no
neighbours: every query returns no rows. -/
def isolatedGraph : String → ℕ → List GraphRow := fun _ _ => []

/-- An exploration started with the configuration defaults of
`ExplorationConfig` (max_exploration_steps 5, exploration_width 3,
relevance_threshold 0.6, exploration_decay_factor 0.9), one seed entity and
a one-word query. -/
def isolatedStart : ExplorationState :=
  startExploration 5 3 (3/5) (9/10) "q" ["A"]

/-- A graph-query function whose every query returns one neighbour `B` with
description `alpha beta` and relation rank 0.8. -/
def oneNeighborGraph : String → ℕ → List GraphRow :=
  fun _ _ => [{ id := "B", description := some "alpha beta", relevance := some (4/5) }]

/-- An exploration over `oneNeighborGraph` with the configuration defaults,
query `alpha` and seed entity `A`. -/
def oneNeighborStart : ExplorationState :=
  startExploration 5 3 (3/5) (9/10) "alpha" ["A"]

/-- The raw neighbour node `_explore_neighbors` builds from the row of
`oneNeighborGraph`: rank 0.8, dataclass-default depth 0. -/
def rawNeighborB : ExplorationNode :=
  { nodeId := "B", nodeType := "entity", content := "alpha beta",
    relevanceScore := 4/5, depth := 0, parentId := some "A" }

/-! ## Thinking engine (src/search_new/reasoning/core/thinking_engine.py)

The injected LLM is modelled as a function from the message history to an
optional reply (`none` models `llm.invoke` raising), each reply carrying its
content and the wall time the call took (for the `time.time() - start_time >
self.timeout` check).  The query-extraction collaborator
(`nlp_utils.extract_queries_from_text`) is likewise a function parameter;
`_extract_queries` applies the engine's own capping and length filtering on
top of it.  `clean_text` collapses whitespace, modelled by re-joining the
whitespace-split words. -/

structure ThinkingStep where
  stepId : String
  content : String
  queries : List String
  deriving Repr, DecidableEq

structure ThinkingSession where
  sessionId : String
  query : String
  steps : List ThinkingStep
  currentStep : ℕ
  status : String
  deriving Repr, DecidableEq

structure EngineState where
  maxDepth : ℕ
  timeout : ℚ
  maxQueriesPerStep : ℕ
  session : Option ThinkingSession
  msgHistory : List String
  deriving Repr, DecidableEq

/-- One LLM reply: the response text and the wall time the call took. -/
structure LLMReply where
  content : String
  elapsed : ℚ
  deriving Repr, DecidableEq

/-- Result of `generate_next_query` (the fields the claims mention). -/
structure GNQResult where
  status : String
  content : String
  queries : List String
  deriving Repr, DecidableEq

/-- `nlp_utils.clean_text`: strip and collapse whitespace runs to single
spaces. -/
def cleanText (text : String) : String :=
  if text = "" then "" else String.intercalate " " (pySplit text)

/-- `ThinkingEngine.create_session` with the configuration defaults of
`ThinkingConfig` except for the constructor-supplied `max_depth`
(`thinking_timeout = 30`, `max_queries_per_step = 3`); seeds the message
history with the system prompt and the query prompt. -/
def createSession (maxDepth : ℕ) (query : String) : EngineState :=
  { maxDepth := maxDepth, timeout := 30, maxQueriesPerStep := 3,
    session := some
      { sessionId := "thinking_0", query := query, steps := [],
        currentStep := 0, status := "active" },
    msgHistory := ["system_prompt", "请分析以下问题并进行深入思考：\n\n" ++ query] }

/-- `ThinkingEngine._is_answer_ready`: the lowercased content contains one of
the hard-coded readiness phrases. -/
def isAnswerReady (content : String) : Bool :=
  ["答案准备好了", "可以回答", "总结如下", "结论是", "综合以上", "基于分析", "最终答案"].any
    (fun kw => strOccursIn kw (pyLower content))

/-- `ThinkingEngine._extract_queries`: run the extraction collaborator, cap
at `max_queries_per_step`, then keep cleaned queries longer than 3
characters. -/
def extractQueriesE (extractRaw : String → List String) (maxQueriesPerStep : ℕ)
    (content : String) : List String :=
  let queries := (extractRaw content).take maxQueriesPerStep
  (queries.map cleanText).filter (fun q => q ≠ "" ∧ 3 < q.length)

/-- `ThinkingEngine.generate_next_query`: depth check first (forces
`answer_ready` once `len(steps) ≥ max_depth`, without an LLM call), then one
LLM call with timeout check, query extraction, step append and status
classification (`has_query` / `answer_ready` / `continue_thinking`). -/
def generateNextQuery (llm : List String → Option LLMReply)
    (extractRaw : String → List String) (s : EngineState) :
    GNQResult × EngineState :=
  match s.session with
  | none => ({ status := "error", content := "没有活跃的思考会话", queries := [] }, s)
  | some session =>
    if s.maxDepth ≤ session.steps.length then
      ({ status := "answer_ready", content := "已达到最大思考深度，准备生成答案",
         queries := [] }, s)
    else
      match llm s.msgHistory with
      | none => ({ status := "error", content := "生成查询失败", queries := [] }, s)
      | some reply =>
        if s.timeout < reply.elapsed then
          ({ status := "timeout", content := "思考过程超时", queries := [] }, s)
        else
          let content := reply.content
          let queries := extractQueriesE extractRaw s.maxQueriesPerStep content
          let stepId := "step_" ++ toString (session.steps.length + 1)
          let step : ThinkingStep := { stepId := stepId, content := content, queries := queries }
          let session2 := { session with
            steps := session.steps ++ [step],
            currentStep := session.steps.length }
          let status :=
            if queries ≠ [] then "has_query"
            else if isAnswerReady content then "answer_ready"
            else "continue_thinking"
          ({ status := status, content := content, queries := queries },
           { s with session := some session2, msgHistory := s.msgHistory ++ [content] })

/-- The statuses of `count` successive `generate_next_query` calls. -/
def gnqStatuses (llm : List String → Option LLMReply)
    (extractRaw : String → List String) : ℕ → EngineState → List String
  | 0, _ => []
  | n + 1, s =>
    let r := generateNextQuery llm extractRaw s
    r.1.status :: gnqStatuses llm extractRaw n r.2

/-! ## Tiered cache (src/search_new/utils/cache_manager.py)

Memory and disk backends behind the `CacheManager` façade, with the clock
injected: every operation takes the current time `now`.  Values are an
arbitrary type `α` standing for the (non-`None`) Python objects the callers
cache.  The disk backend's file mtime equals the time the entry was written;
pickle corruption is an I/O phenomenon outside the embedding. -/

structure MemEntry (α : Type) where
  value : α
  createdAt : ℚ
  ttl : Option ℤ
  deriving Repr, DecidableEq

structure MemCache (α : Type) where
  maxSize : ℕ
  defaultTtl : ℤ
  cache : List (String × MemEntry α)
  accessTimes : List (String × ℚ)
  deriving Repr, DecidableEq

structure DiskEntry (α : Type) where
  value : α
  ttl : ℤ
  createdAt : ℚ
  mtime : ℚ
  deriving Repr, DecidableEq

structure DiskCache (α : Type) where
  defaultTtl : ℤ
  files : List (String × DiskEntry α)
  deriving Repr, DecidableEq

structure TieredCache (α : Type) where
  memory : MemCache α
  disk : DiskCache α
  deriving Repr, DecidableEq

/-- Python `ttl or self.default_ttl`: `None` and `0` both fall back to the
default. -/
def effectiveTtl (ttl : Option ℤ) (defaultTtl : ℤ) : ℤ :=
  match ttl with
  | none => defaultTtl
  | some t => if t = 0 then defaultTtl else t

/-- `MemoryCacheBackend._is_expired`: absent keys count as expired; an entry
with a ttl is expired once `now > created_at + ttl`. -/
def memIsExpired (now : ℚ) (m : MemCache α) (key : String) : Bool :=
  match m.cache.find? (fun p => p.1 == key) with
  | none => true
  | some (_, e) =>
    match e.ttl with
    | none => false
    | some t => decide (e.createdAt + (t : ℚ) < now)

/-- Stable ascending insertion by access time, modelling Python's stable
`sorted(..., key=lambda x: x[1])`. -/
def insertByTimeAsc (x : String × ℚ) : List (String × ℚ) → List (String × ℚ)
  | [] => [x]
  | y :: ys => if x.2 < y.2 then x :: y :: ys else y :: insertByTimeAsc x ys

/-- Sort the access-time pairs ascending by time (stable). -/
def sortByTimeAsc : List (String × ℚ) → List (String × ℚ)
  | [] => []
  | x :: xs => insertByTimeAsc x (sortByTimeAsc xs)

/-- `MemoryCacheBackend._evict_if_needed`: nothing below `max_size`; then
drop expired entries; if still at or above the bound, drop the least
recently used `len - max_size + 1` keys. -/
def memEvictIfNeeded (now : ℚ) (m : MemCache α) : MemCache α :=
  if m.cache.length < m.maxSize then m
  else
    let keep := m.cache.filter (fun p => ¬ memIsExpired now m p.1)
    let keptKeys := keep.map (fun p => p.1)
    let accessKept := m.accessTimes.filter (fun p => p.1 ∈ keptKeys)
    if m.maxSize ≤ keep.length then
      let toRemove := ((sortByTimeAsc accessKept).take (keep.length - m.maxSize + 1)).map
        (fun p => p.1)
      { m with
        cache := keep.filter (fun p => p.1 ∉ toRemove),
        accessTimes := accessKept.filter (fun p => p.1 ∉ toRemove) }
    else { m with cache := keep, accessTimes := accessKept }

/-- Insert-or-replace for association lists keyed by strings. -/
def assocUpsert (l : List (String × β)) (key : String) (v : β) : List (String × β) :=
  if l.any (fun p => p.1 == key) then
    l.map (fun p => if p.1 == key then (key, v) else p)
  else l ++ [(key, v)]

/-- `MemoryCacheBackend.set`: evict if needed, then store the entry with
`created_at = now` and the effective ttl, and record the access time. -/
def memSet (now : ℚ) (m : MemCache α) (key : String) (value : α)
    (ttl : Option ℤ) : MemCache α :=
  let m1 := memEvictIfNeeded now m
  { m1 with
    cache := assocUpsert m1.cache key
      { value := value, createdAt := now, ttl := some (effectiveTtl ttl m.defaultTtl) },
    accessTimes := assocUpsert m1.accessTimes key now }

/-- `MemoryCacheBackend.get`: `None` for missing or expired keys; otherwise
refresh the access time and return the value. -/
def memGet (now : ℚ) (m : MemCache α) (key : String) : Option α × MemCache α :=
  match m.cache.find? (fun p => p.1 == key) with
  | none => (none, m)
  | some (_, e) =>
    if memIsExpired now m key then (none, m)
    else (some e.value, { m with accessTimes := assocUpsert m.accessTimes key now })

/-- `DiskCacheBackend.set`: write the record; the file mtime is the write
time. -/
def diskSet (now : ℚ) (d : DiskCache α) (key : String) (value : α)
    (ttl : Option ℤ) : DiskCache α :=
  let entry : DiskEntry α :=
    { value := value, ttl := effectiveTtl ttl d.defaultTtl, createdAt := now,
      mtime := now }
  { d with files := assocUpsert d.files key entry }

/-- `DiskCacheBackend.get`: `None` for missing files; an entry is expired
once `now > mtime + ttl`, in which case the file is removed. -/
def diskGet (now : ℚ) (d : DiskCache α) (key : String) : Option α × DiskCache α :=
  match d.files.find? (fun p => p.1 == key) with
  | none => (none, d)
  | some (_, e) =>
    if e.mtime + (e.ttl : ℚ) < now then
      (none, { d with files := d.files.eraseP (fun p => p.1 == key) })
    else (some e.value, d)

/-- `CacheManager.get` with both tiers enabled: memory first; on a disk hit
back-fill memory (with the default ttl — the back-fill `set` passes no
ttl). -/
def cacheGet (now : ℚ) (c : TieredCache α) (key : String) :
    Option α × TieredCache α :=
  match memGet now c.memory key with
  | (some v, m2) => (some v, { c with memory := m2 })
  | (none, m2) =>
    match diskGet now c.disk key with
    | (some v, d2) =>
      (some v, { memory := memSet now m2 key v none, disk := d2 })
    | (none, d2) => (none, { memory := m2, disk := d2 })

/-- `CacheManager.set` with both tiers enabled: write-through to memory and
disk. -/
def cacheSet (now : ℚ) (c : TieredCache α) (key : String) (value : α)
    (ttl : Option ℤ) : TieredCache α :=
  { memory := memSet now c.memory key value ttl,
    disk := diskSet now c.disk key value ttl }

/-- A tiered cache with the backend defaults (`max_size = 1000`,
`default_ttl = 3600`) and no entries. -/
def emptyTieredCache (α : Type) : TieredCache α :=
  { memory := { maxSize := 1000, defaultTtl := 3600, cache := [], accessTimes := [] },
    disk := { defaultTtl := 3600, files := [] } }

/-! ## Dual-path searcher (src/search_new/reasoning/search/dual_searcher.py)

Only `_merge_results` carries algorithmic content relevant to the claims:
both result lists are tagged with their configured weights, concatenated (kb
first), and de-duplicated with a `seen` set preserving first-seen order. -/

/-- The loop over `all_results` in `DualPathSearcher._merge_results`. -/
def mergeLoop : List (String × ℚ) → List String → List String
  | [], _ => []
  | (r, _) :: rest, seen =>
    if r ∈ seen then mergeLoop rest seen
    else r :: mergeLoop rest (r :: seen)

/-- `DualPathSearcher._merge_results` with the instance weights
(`kb_weight`, `kg_weight`). -/
def mergeResults (kbWeight kgWeight : ℚ) (kbResults kgResults : List String) :
    List String :=
  let kbWeighted := kbResults.map (fun r => (r, kbWeight))
  let kgWeighted := kgResults.map (fun r => (r, kgWeight))
  mergeLoop (kbWeighted ++ kgWeighted) []

/-- Specification-side description of the fusion: the concatenation of the
kb list followed by the kg list with duplicates removed, keeping the first
occurrence of each element. -/
def dedupFirstSeenSpec : List String → List String
  | [] => []
  | x :: xs => x :: dedupFirstSeenSpec (xs.filter (fun y => y ≠ x))
  termination_by l => l.length
  decreasing_by
    simp only [List.length_cons]
    exact Nat.lt_succ_of_le (List.length_filter_le _ _)

/-! ## Complexity estimator
(src/search_new/reasoning/validation/complexity_estimator.py)

`_calculate_semantic_complexity` over a query string.  The entity and
extracted-keyword counts come from the `nlp_utils` collaborators
(`extract_entities`, `extract_keywords`); they are passed in as the numbers
the source derives from those calls. -/

/-- The `high_complexity_keywords` families of
`ComplexityEstimator._setup_complexity_patterns`, flattened in dict insertion
order. -/
def highComplexityKeywords : List String :=
  ["比较", "对比", "区别", "差异", "相似", "不同",
   "分析", "解释", "原因", "为什么", "如何", "机制",
   "评估", "评价", "判断", "优缺点", "利弊", "影响",
   "综合", "总结", "概括", "整合", "关联", "联系",
   "推断", "推理", "预测", "假设", "可能", "趋势",
   "步骤", "过程", "流程", "阶段", "顺序", "先后"]

/-- The `relation_score` accumulation: 0.1 per family keyword occurring in
the query. -/
def relationScore (query : String) : ℚ :=
  ((highComplexityKeywords.filter (fun kw => strOccursIn kw query)).length : ℚ) * (1/10)

/-- `ComplexityEstimator._calculate_semantic_complexity`:
`min(entity_count/10, 1) * 0.4 + min(keyword_count/15, 1) * 0.3 +
min(relation_score, 0.5) * 0.3`, capped at 1.  `entityCount` is the total
entity count from `extract_entities` and `keywordCount` the length of
`extract_keywords`' result for the same query. -/
def semanticComplexity (entityCount keywordCount : ℕ) (query : String) : ℚ :=
  let entityScore := min ((entityCount : ℚ) / 10) 1
  let keywordScore := min ((keywordCount : ℚ) / 15) 1
  let score := entityScore * (4/10) + keywordScore * (3/10) +
    min (relationScore query) (1/2) * (3/10)
  min score 1

/-! ## Answer validator
(src/search_new/reasoning/validation/answer_validator.py)

Each sub-check invokes an LLM chain and JSON-parses its output.  A chain
invocation is modelled as either a failure (exception) or the response text;
`json.loads` restricted to the numeric fields of a JSON object is the
injected parameter `parseJson` (`none` models `json.JSONDecodeError`).  The
issues/suggestions aggregation is elided; it contributes nothing to any
score. -/

inductive LLMCall where
  | failure
  | success (text : String)

/-- Numeric field lookup with default, modelling `dict.get(key, default)` on
the parsed JSON object. -/
def getNumField (fields : List (String × ℚ)) (key : String) (dflt : ℚ) : ℚ :=
  match fields.find? (fun p => p.1 == key) with
  | some p => p.2
  | none => dflt

/-- `AnswerValidator._parse_validation_result`: the parsed object on
success; on `json.JSONDecodeError` the fallback dict, which stores the
neutral 0.5 under the key `score`. -/
def parseValidationResult (parsed : Option (List (String × ℚ))) :
    List (String × ℚ) :=
  match parsed with
  | some fields => fields
  | none => [("score", 1/2)]

/-- `AnswerValidator._validate_accuracy`: on a chain exception the handler
returns `accuracy_score 0.5`; otherwise the parsed (or fallback) dict. -/
def validateAccuracy (parseJson : String → Option (List (String × ℚ)))
    (call : LLMCall) : List (String × ℚ) :=
  match call with
  | .failure => [("accuracy_score", 1/2)]
  | .success t => parseValidationResult (parseJson t)

/-- `AnswerValidator._validate_completeness`. -/
def validateCompleteness (parseJson : String → Option (List (String × ℚ)))
    (call : LLMCall) : List (String × ℚ) :=
  match call with
  | .failure => [("completeness_score", 1/2)]
  | .success t => parseValidationResult (parseJson t)

/-- `AnswerValidator._validate_consistency`. -/
def validateConsistency (parseJson : String → Option (List (String × ℚ)))
    (call : LLMCall) : List (String × ℚ) :=
  match call with
  | .failure => [("consistency_score", 1/2)]
  | .success t => parseValidationResult (parseJson t)

/-- `ValidationResult` (the fields the claims mention; `metadata` holds the
three sub-scores). -/
structure ValidationResult where
  isValid : Bool
  confidenceScore : ℚ
  validationType : String
  metadata : List (String × ℚ)
  deriving Repr, DecidableEq

/-- `AnswerValidator.validate_answer` with validation enabled: run the three
sub-checks, read each sub-score from the sub-check dict with default 0.0 and
combine with weights 0.4/0.3/0.3. -/
def validateAnswer (validationThreshold : ℚ)
    (parseJson : String → Option (List (String × ℚ)))
    (accuracyCall completenessCall consistencyCall : LLMCall) : ValidationResult :=
  let accuracyResult := validateAccuracy parseJson accuracyCall
  let completenessResult := validateCompleteness parseJson completenessCall
  let consistencyResult := validateConsistency parseJson consistencyCall
  let accuracyScore := getNumField accuracyResult "accuracy_score" 0
  let completenessScore := getNumField completenessResult "completeness_score" 0
  let consistencyScore := getNumField consistencyResult "consistency_score" 0
  let overallScore := accuracyScore * (4/10) + completenessScore * (3/10) +
    consistencyScore * (3/10)
  { isValid := validationThreshold ≤ overallScore,
    confidenceScore := overallScore,
    validationType := "comprehensive",
    metadata := [("accuracy_score", accuracyScore),
                 ("completeness_score", completenessScore),
                 ("consistency_score", consistencyScore)] }

/-! ## Concrete collaborator instances and invariants used by the theorems -/

/-- An injected LLM that always answers the fixed text `思考中` instantly:
no readiness phrase and nothing a query extractor could pick up. -/
def silentLLM : List String → Option LLMReply :=
  fun _ => some { content := "思考中", elapsed := 0 }

/-- A query-extraction collaborator that extracts nothing, as
`extract_queries_from_text` does on `思考中` (no numbered lines, quotes,
question marks or query-like sentences of length above 5). -/
def noExtraction : String → List String := fun _ => []

/-- The state invariant maintained by the evidence tracker on its current
chain: the item map respects the capacity bound, every stored evidence id is
non-empty (they are md5 fingerprints in the source), and no reasoning step
lists the same evidence id twice (`_associate_evidence_to_step` guards every
append). -/
def ChainInv (cfg : EvidenceConfig) (c : EvidenceChain) : Prop :=
  c.evidenceItems.length ≤ cfg.maxEvidenceItems ∧
  (∀ p ∈ c.evidenceItems, p.1 ≠ "") ∧
  (∀ st ∈ c.reasoningSteps, st.evidenceIds.Nodup)

/-- An evidence-tracker configuration with capacity one (validation and
deduplication on, default relevance threshold). -/
def tinyEvidenceConfig : EvidenceConfig :=
  { maxEvidenceItems := 1, relevanceThreshold := 7/10,
    enableValidation := true, enableDedup := true }

/-- The single stored evidence item of `singletonChain`. -/
def storedEvidence : Evidence :=
  { evidenceId := "s0:some sufficiently long stored content",
    sourceId := "s0", content := "some sufficiently long stored content",
    sourceType := "document", relevanceScore := 8/10, confidenceScore := 9/10 }

/-- The single reasoning step of `singletonChain`, referencing
`storedEvidence`. -/
def storedStep : ReasoningStep :=
  { stepId := "step_1", description := "d",
    evidenceIds := ["s0:some sufficiently long stored content"],
    reasoningType := "general", confidence := 0 }

/-- A chain holding one evidence item, referenced by one reasoning step. -/
def singletonChain : EvidenceChain :=
  { chainId := "chain_0", query := "q",
    reasoningSteps := [storedStep],
    evidenceItems := [("s0:some sufficiently long stored content", storedEvidence)] }

/-- A short trace of tracker calls: an accepted evidence item, a reasoning
step, then a second accepted item linked to that step. -/
def sampleTrackerOps : List TrackerOp :=
  [.addEv "s1" "a sufficiently long content" "document" none (8/10) (9/10),
   .addStep "link the sources" "general" (1/2),
   .addEv "s2" "another sufficiently long content" "entity" (some "step_1") (9/10) (8/10)]

/-! ## Theorems -/

/-- The `seen`-set loop of `_merge_results` computes a first-seen
deduplication of the keys not yet seen. -/
theorem mergeLoop_eq (l : List (String × ℚ)) :
    ∀ seen : List String,
      mergeLoop l seen =
        dedupFirstSeenSpec ((l.map Prod.fst).filter (fun r => r ∉ seen)) := by
  induction l with
  | nil => intro seen; simp [mergeLoop, dedupFirstSeenSpec]
  | cons p rest ih =>
    intro seen
    obtain ⟨r, w⟩ := p
    by_cases h : r ∈ seen
    · have hl : mergeLoop ((r, w) :: rest) seen = mergeLoop rest seen := by
        simp [mergeLoop, h]
      have hf : (List.map Prod.fst ((r, w) :: rest)).filter
            (fun x => decide (x ∉ seen)) =
          (List.map Prod.fst rest).filter (fun x => decide (x ∉ seen)) := by
        simp [h]
      rw [hl, hf]
      exact ih seen
    · have hl : mergeLoop ((r, w) :: rest) seen = r :: mergeLoop rest (r :: seen) := by
        simp [mergeLoop, h]
      have hf : (List.map Prod.fst ((r, w) :: rest)).filter
            (fun x => decide (x ∉ seen)) =
          r :: (List.map Prod.fst rest).filter (fun x => decide (x ∉ seen)) := by
        simp [h]
      rw [hl, hf]
      simp only [dedupFirstSeenSpec]
      rw [ih (r :: seen), List.filter_filter]
      have hpred : ∀ x ∈ List.map Prod.fst rest,
          (decide (x ∉ r :: seen)) = (decide (x ≠ r) && decide (x ∉ seen)) := by
        intro x _
        by_cases hx : x = r <;> by_cases hxs : x ∈ seen <;> simp [hx, hxs]
      rw [List.filter_congr hpred]

/-- Claim C8: `_merge_results` returns the kb list followed by the kg list
with duplicates removed preserving first-seen order, independently of the
configured weights; in particular merging `[a, b]` with `[b, c]` yields
`[a, b, c]`. -/
theorem mergeResults_first_seen_dedup :
    (∀ (w1 w2 : ℚ) (kbResults kgResults : List String),
      mergeResults w1 w2 kbResults kgResults =
        dedupFirstSeenSpec (kbResults ++ kgResults)) ∧
    mergeResults (6/10) (4/10) ["a", "b"] ["b", "c"] = ["a", "b", "c"] := by
  constructor
  · intro w1 w2 kbResults kgResults
    unfold mergeResults
    rw [mergeLoop_eq]
    simp only [List.map_append, List.map_map]
    rw [show (Prod.fst ∘ fun r : String => (r, w1)) = id from rfl,
        show (Prod.fst ∘ fun r : String => (r, w2)) = id from rfl,
        List.map_id, List.map_id]
    congr 1
    apply List.filter_eq_self.mpr
    intro x _
    simp
  · rfl

/-- Claim C9: a query containing none of the comparison/analysis keyword
families scores at most the `semantic_complexity` of any query, the entity
and extracted-keyword counts held constant — adding family keywords can only
raise the semantic score. -/
theorem semanticComplexity_keyword_monotone (entityCount keywordCount : ℕ)
    (q1 q2 : String)
    (h : ∀ kw ∈ highComplexityKeywords, strOccursIn kw q1 = false) :
    semanticComplexity entityCount keywordCount q1 ≤
      semanticComplexity entityCount keywordCount q2 := by
  have h1 : relationScore q1 = 0 := by
    unfold relationScore
    have : highComplexityKeywords.filter (fun kw => strOccursIn kw q1) = [] := by
      apply List.filter_eq_nil_iff.mpr
      intro kw hkw
      simp [h kw hkw]
    rw [this]
    simp
  have h2 : (0 : ℚ) ≤ relationScore q2 := by
    unfold relationScore
    positivity
  unfold semanticComplexity
  rw [h1]
  apply min_le_min _ le_rfl
  have h0 : min (0 : ℚ) (1/2) = 0 := by norm_num
  rw [h0]
  have h3 : (0 : ℚ) ≤ min (relationScore q2) (1/2) := le_min h2 (by norm_num)
  have h4 : (0 : ℚ) ≤ min (relationScore q2) (1/2) * (3/10) :=
    mul_nonneg h3 (by norm_num)
  linarith

/-- Witness for C9 at a concrete pair of queries: `天空是蓝色` contains no
family keyword, `比较分析差异` contains several. -/
theorem semanticComplexity_keyword_monotone_witness :
    (∀ kw ∈ highComplexityKeywords, strOccursIn kw "天空是蓝色" = false) ∧
    semanticComplexity 2 3 "天空是蓝色" ≤ semanticComplexity 2 3 "比较分析差异" :=
  ⟨by decide, semanticComplexity_keyword_monotone 2 3 _ _ (by decide)⟩

/-- The fold inside `findLeastRelevantId`, started from a candidate, returns
a pair of minimal relevance among the candidate and the remaining items. -/
theorem findLeast_fold_spec (l : List (String × Evidence)) :
    ∀ p : String × Evidence,
      ∃ r : String × Evidence,
        l.foldl leastScan (some p) = some r ∧
        (r = p ∨ r ∈ l) ∧ r.2.relevanceScore ≤ p.2.relevanceScore ∧
        ∀ q ∈ l, r.2.relevanceScore ≤ q.2.relevanceScore := by
  induction l with
  | nil =>
    intro p
    exact ⟨p, rfl, Or.inl rfl, le_rfl, by intro q hq; cases hq⟩
  | cons q rest ih =>
    intro p
    by_cases h : q.2.relevanceScore < p.2.relevanceScore
    · obtain ⟨r, hfold, hmem, hle, hall⟩ := ih q
      refine ⟨r, ?_, ?_, ?_, ?_⟩
      · rw [List.foldl_cons, show leastScan (some p) q = some q from by
          simp [leastScan, h]]
        exact hfold
      · rcases hmem with h1 | h1
        · exact Or.inr (by simp [h1])
        · exact Or.inr (List.mem_cons_of_mem _ h1)
      · exact le_trans hle (le_of_lt h)
      · intro x hx
        rcases List.mem_cons.mp hx with h1 | h1
        · exact h1 ▸ hle
        · exact hall x h1
    · obtain ⟨r, hfold, hmem, hle, hall⟩ := ih p
      refine ⟨r, ?_, ?_, ?_, ?_⟩
      · rw [List.foldl_cons, show leastScan (some p) q = some p from by
          simp [leastScan, h]]
        exact hfold
      · rcases hmem with h1 | h1
        · exact Or.inl h1
        · exact Or.inr (List.mem_cons_of_mem _ h1)
      · exact hle
      · intro x hx
        rcases List.mem_cons.mp hx with h1 | h1
        · exact h1 ▸ le_trans hle (not_lt.mp h)
        · exact hall x h1

/-- On a non-empty item map, `findLeastRelevantId` returns the id of a
stored item whose relevance is minimal. -/
theorem findLeastRelevantId_spec (items : List (String × Evidence))
    (hne : items ≠ []) :
    ∃ id ev, findLeastRelevantId items = some id ∧ (id, ev) ∈ items ∧
      ∀ q ∈ items, ev.relevanceScore ≤ q.2.relevanceScore := by
  match items, hne with
  | p :: rest, _ =>
    obtain ⟨r, hfold, hmem, hle, hall⟩ := findLeast_fold_spec rest p
    refine ⟨r.1, r.2, ?_, ?_, ?_⟩
    · unfold findLeastRelevantId
      rw [List.foldl_cons, show leastScan none p = some p from rfl, hfold]
      rfl
    · rcases hmem with h1 | h1
      · simp [h1]
      · exact List.mem_cons_of_mem _ (by simpa using h1)
    · intro q hq
      rcases List.mem_cons.mp hq with h1 | h1
      · exact h1 ▸ hle
      · exact hall q h1

/-- The evidence-id fingerprint is never the empty string (it contains the
separating colon, as the md5 hex digest is never empty). -/
theorem evidenceIdOf_ne_empty (sourceId content : String) :
    evidenceIdOf sourceId content ≠ "" := by
  intro h
  have hlen := congrArg String.length h
  rw [evidenceIdOf, String.length_append, String.length_append,
    show (":" : String).length = 1 from rfl,
    show ("" : String).length = 0 from rfl] at hlen
  omega

/-- `_remove_least_relevant_evidence` on a non-empty chain whose stored ids
are non-empty: a minimum-relevance item is deleted from the item map (the
map shrinks by exactly one entry) and its id is erased from every reasoning
step. -/
theorem removeLeastRelevant_spec (c : EvidenceChain)
    (hne : c.evidenceItems ≠ [])
    (hkeys : ∀ p ∈ c.evidenceItems, p.1 ≠ "") :
    ∃ id ev, (id, ev) ∈ c.evidenceItems ∧
      (∀ q ∈ c.evidenceItems, ev.relevanceScore ≤ q.2.relevanceScore) ∧
      (removeLeastRelevant c).evidenceItems =
        c.evidenceItems.eraseP (fun p => p.1 == id) ∧
      (removeLeastRelevant c).reasoningSteps =
        c.reasoningSteps.map
          (fun st => { st with evidenceIds := st.evidenceIds.erase id }) ∧
      (removeLeastRelevant c).evidenceItems.length + 1 =
        c.evidenceItems.length := by
  obtain ⟨id, ev, hfind, hmem, hmin⟩ := findLeastRelevantId_spec c.evidenceItems hne
  have hid : id ≠ "" := hkeys (id, ev) hmem
  have hrm : removeLeastRelevant c =
      { c with
        evidenceItems := c.evidenceItems.eraseP (fun p => p.1 == id),
        reasoningSteps := c.reasoningSteps.map
          (fun st => { st with evidenceIds := st.evidenceIds.erase id }) } := by
    unfold removeLeastRelevant
    simp [hne, hfind, hid]
  refine ⟨id, ev, hmem, hmin, ?_, ?_, ?_⟩
  · rw [hrm]
  · rw [hrm]
  · rw [hrm]
    exact List.length_eraseP_add_one hmem (by simp)

/-- Claim C6: when deduplication is enabled (its default) and the evidence
id derived from `(source_id, content)` is already stored, `add_evidence`
returns that id and leaves the chain untouched, whatever relevance and
confidence scores it is passed; and every `add_evidence` call for the same
`(source_id, content)` — the first one included — returns either the empty
id (rejection) or that very same derived id. -/
theorem addEvidence_dedup_noop
    (cfg : EvidenceConfig) (chain : EvidenceChain)
    (sourceId content sourceType : String) (stepId : Option String)
    (relevanceScore confidenceScore : ℚ)
    (cfg0 : EvidenceConfig) (chain0 : EvidenceChain) (sourceType0 : String)
    (stepId0 : Option String) (rel0 conf0 : ℚ)
    (hd : cfg.enableDedup = true)
    (hin : (chain.evidenceItems.any fun p => p.1 == evidenceIdOf sourceId content) = true) :
    addEvidence cfg chain sourceId content sourceType stepId relevanceScore
        confidenceScore = (evidenceIdOf sourceId content, chain) ∧
    ((addEvidence cfg0 chain0 sourceId content sourceType0 stepId0 rel0 conf0).1 = "" ∨
     (addEvidence cfg0 chain0 sourceId content sourceType0 stepId0 rel0 conf0).1 =
       evidenceIdOf sourceId content) := by
  constructor
  · unfold addEvidence
    rw [if_pos ⟨hd, hin⟩]
  · unfold addEvidence
    dsimp only
    split
    · right; rfl
    · split
      · left; rfl
      · split
        · left; rfl
        · right
          cases stepId0 <;> rfl

set_option maxRecDepth 8000 in
/-- Witness for C6: re-adding the stored item of `singletonChain` with
fresh scores is a no-op returning the stored id. -/
theorem addEvidence_dedup_noop_witness :
    defaultEvidenceConfig.enableDedup = true ∧
    (singletonChain.evidenceItems.any fun p =>
      p.1 == evidenceIdOf "s0" "some sufficiently long stored content") = true ∧
    (addEvidence defaultEvidenceConfig singletonChain "s0"
        "some sufficiently long stored content" "entity" none (1/10) 0 =
      (evidenceIdOf "s0" "some sufficiently long stored content", singletonChain) ∧
    ((addEvidence defaultEvidenceConfig (emptyChain "q") "s0"
        "some sufficiently long stored content" "document" none (9/10) (9/10)).1 = "" ∨
     (addEvidence defaultEvidenceConfig (emptyChain "q") "s0"
        "some sufficiently long stored content" "document" none (9/10) (9/10)).1 =
       evidenceIdOf "s0" "some sufficiently long stored content")) :=
  ⟨rfl, rfl,
    addEvidence_dedup_noop defaultEvidenceConfig singletonChain "s0"
      "some sufficiently long stored content" "entity" none (1/10) 0
      defaultEvidenceConfig (emptyChain "q") "document" none (9/10) (9/10)
      rfl rfl⟩

/-- Claim C10: an `add_evidence` call that passes the dedup and relevance
checks on a chain at capacity but is then rejected by quality validation
returns the empty id with the eviction already applied — the chain has
shrunk by one item although nothing was inserted. -/
theorem addEvidence_reject_after_evict
    (cfg : EvidenceConfig) (chain : EvidenceChain)
    (sourceId content sourceType : String) (stepId : Option String)
    (relevanceScore confidenceScore : ℚ)
    (hval : cfg.enableValidation = true)
    (hnew : (chain.evidenceItems.any fun p =>
      p.1 == evidenceIdOf sourceId content) = false)
    (hrel : cfg.relevanceThreshold ≤ relevanceScore)
    (hcap : cfg.maxEvidenceItems ≤ chain.evidenceItems.length)
    (hfail : validateEvidence
      { evidenceId := evidenceIdOf sourceId content, sourceId := sourceId,
        content := content, sourceType := sourceType,
        relevanceScore := relevanceScore,
        confidenceScore := confidenceScore } = false)
    (hne : chain.evidenceItems ≠ [])
    (hkeys : ∀ p ∈ chain.evidenceItems, p.1 ≠ "") :
    addEvidence cfg chain sourceId content sourceType stepId relevanceScore
        confidenceScore = ("", removeLeastRelevant chain) ∧
    (removeLeastRelevant chain).evidenceItems.length + 1 =
      chain.evidenceItems.length := by
  constructor
  · unfold addEvidence
    have h1 : ¬(cfg.enableDedup = true ∧
        (chain.evidenceItems.any fun p =>
          p.1 == evidenceIdOf sourceId content) = true) := by
      rintro ⟨-, h⟩
      rw [hnew] at h
      exact absurd h (by simp)
    have h3 : cfg.enableValidation = true ∧
        ¬(validateEvidence
          { evidenceId := evidenceIdOf sourceId content, sourceId := sourceId,
            content := content, sourceType := sourceType,
            relevanceScore := relevanceScore,
            confidenceScore := confidenceScore } = true) := by
      refine ⟨hval, ?_⟩
      rw [hfail]
      simp
    rw [if_neg h1, if_neg (not_lt.mpr hrel), if_pos hcap, if_pos h3]
  · obtain ⟨id, ev, _, _, _, _, hlen⟩ := removeLeastRelevant_spec chain hne hkeys
    exact hlen

set_option maxRecDepth 8000 in
/-- Witness for C10: on a capacity-one chain, adding a too-short (hence
invalid) but relevant item evicts the stored item and then rejects the new
one, leaving the chain empty. -/
theorem addEvidence_reject_after_evict_witness :
    tinyEvidenceConfig.enableValidation = true ∧
    (singletonChain.evidenceItems.any fun p => p.1 == evidenceIdOf "s9" "short") = false ∧
    tinyEvidenceConfig.relevanceThreshold ≤ 8/10 ∧
    tinyEvidenceConfig.maxEvidenceItems ≤ singletonChain.evidenceItems.length ∧
    validateEvidence
      { evidenceId := evidenceIdOf "s9" "short", sourceId := "s9",
        content := "short", sourceType := "document",
        relevanceScore := 8/10, confidenceScore := 9/10 } = false ∧
    singletonChain.evidenceItems ≠ [] ∧
    (∀ p ∈ singletonChain.evidenceItems, p.1 ≠ "") ∧
    (addEvidence tinyEvidenceConfig singletonChain "s9" "short" "document" none
        (8/10) (9/10) = ("", removeLeastRelevant singletonChain) ∧
     (removeLeastRelevant singletonChain).evidenceItems.length + 1 =
       singletonChain.evidenceItems.length) :=
  ⟨rfl, rfl, by norm_num [tinyEvidenceConfig], by decide, rfl, by decide, by decide,
    addEvidence_reject_after_evict tinyEvidenceConfig singletonChain "s9" "short"
      "document" none (8/10) (9/10) rfl rfl
      (by norm_num [tinyEvidenceConfig]) (by decide) rfl (by decide) (by decide)⟩

/-- An upsert grows the item map by at most one entry. -/
theorem upsertItem_length_le (items : List (String × Evidence)) (id : String)
    (ev : Evidence) : (upsertItem items id ev).length ≤ items.length + 1 := by
  unfold upsertItem
  split
  · rw [List.length_map]
    exact Nat.le_succ _
  · rw [List.length_append]
    exact le_rfl

/-- Every entry of an upsert is the new entry or an old one. -/
theorem upsertItem_mem (items : List (String × Evidence)) (id : String)
    (ev : Evidence) (p : String × Evidence) (hp : p ∈ upsertItem items id ev) :
    p = (id, ev) ∨ p ∈ items := by
  unfold upsertItem at hp
  split at hp
  · obtain ⟨q, hq, hfq⟩ := List.mem_map.mp hp
    by_cases h : q.1 == id
    · left
      rw [if_pos h] at hfq
      exact hfq.symm
    · right
      rw [if_neg h] at hfq
      exact hfq ▸ hq
  · rcases List.mem_append.mp hp with h | h
    · exact Or.inr h
    · left
      simpa using h
/-- Every step after a step association is an old step or an old step with
the evidence id appended, and only appended when it was absent. -/
theorem associateEvidenceToStep_mem (steps : List ReasoningStep)
    (stepId evidenceId : String) (st : ReasoningStep)
    (hst : st ∈ associateEvidenceToStep steps stepId evidenceId) :
    st ∈ steps ∨
      ∃ st0 ∈ steps, evidenceId ∉ st0.evidenceIds ∧
        st = { st0 with evidenceIds := st0.evidenceIds ++ [evidenceId] } := by
  induction steps with
  | nil => cases hst
  | cons s rest ih =>
    unfold associateEvidenceToStep at hst
    split at hst
    · rcases List.mem_cons.mp hst with h | h
      · by_cases hmem : evidenceId ∈ s.evidenceIds
        · rw [if_pos hmem] at h
          exact Or.inl (h ▸ List.mem_cons_self _ _)
        · rw [if_neg hmem] at h
          exact Or.inr ⟨s, List.mem_cons_self _ _, hmem, h⟩
      · exact Or.inl (List.mem_cons_of_mem _ h)
    · rcases List.mem_cons.mp hst with h | h
      · exact Or.inl (h ▸ List.mem_cons_self _ _)
      · rcases ih h with h1 | ⟨st0, hst0, hni, heq⟩
        · exact Or.inl (List.mem_cons_of_mem _ h1)
        · exact Or.inr ⟨st0, List.mem_cons_of_mem _ hst0, hni, heq⟩

/-- Appending a fresh element preserves having no duplicates. -/
theorem nodup_append_singleton {l : List String} {x : String}
    (h : l.Nodup) (hx : x ∉ l) : (l ++ [x]).Nodup := by
  rw [List.nodup_append]
  exact ⟨h, List.nodup_singleton x, by
    intro a ha hax
    rw [List.mem_singleton.mp hax] at ha
    exact hx ha⟩

/-- `_remove_least_relevant_evidence` never grows the item map, keeps only
stored ids, and keeps every step's evidence-id list duplicate-free. -/
theorem removeLeastRelevant_inv (c : EvidenceChain)
    (h1 : ∀ p ∈ c.evidenceItems, p.1 ≠ "")
    (h2 : ∀ st ∈ c.reasoningSteps, st.evidenceIds.Nodup) :
    (removeLeastRelevant c).evidenceItems.length ≤ c.evidenceItems.length ∧
    (∀ p ∈ (removeLeastRelevant c).evidenceItems, p.1 ≠ "") ∧
    (∀ st ∈ (removeLeastRelevant c).reasoningSteps, st.evidenceIds.Nodup) := by
  unfold removeLeastRelevant
  split
  · exact ⟨le_rfl, h1, h2⟩
  · split
    · exact ⟨le_rfl, h1, h2⟩
    · split
      · exact ⟨le_rfl, h1, h2⟩
      · refine ⟨List.length_eraseP_le _, ?_, ?_⟩
        · intro p hp
          exact h1 p ((List.eraseP_sublist _).subset hp)
        · intro st hst
          obtain ⟨st0, hst0, heq⟩ := List.mem_map.mp hst
          rw [← heq]
          exact (h2 st0 hst0).erase _

/-- `add_evidence` preserves the chain invariant whenever the configured
capacity is at least one. -/
theorem addEvidence_preserves_inv (cfg : EvidenceConfig)
    (hmax : 1 ≤ cfg.maxEvidenceItems) (chain : EvidenceChain)
    (sourceId content sourceType : String) (stepId : Option String)
    (relevanceScore confidenceScore : ℚ) (hInv : ChainInv cfg chain) :
    ChainInv cfg (addEvidence cfg chain sourceId content sourceType stepId
      relevanceScore confidenceScore).2 := by
  obtain ⟨hlen, hkeys, hsteps⟩ := hInv
  unfold addEvidence
  dsimp only
  split
  · exact ⟨hlen, hkeys, hsteps⟩
  · split
    · exact ⟨hlen, hkeys, hsteps⟩
    · -- the evicted-or-unchanged intermediate chain and its invariant facts
      by_cases hcap : cfg.maxEvidenceItems ≤ chain.evidenceItems.length
      · have hne : chain.evidenceItems ≠ [] := by
          intro h
          rw [h] at hcap
          simp at hcap
          omega
        obtain ⟨_, _, _, _, _, _, hlen1⟩ :=
          removeLeastRelevant_spec chain hne hkeys
        obtain ⟨_, hkeys1, hsteps1⟩ := removeLeastRelevant_inv chain hkeys hsteps
        rw [if_pos hcap]
        split
        · exact ⟨by dsimp only; omega, hkeys1, hsteps1⟩
        · cases stepId with
          | none =>
            refine ⟨?_, ?_, ?_⟩
            · show (upsertItem (removeLeastRelevant chain).evidenceItems _ _).length ≤ _
              calc (upsertItem (removeLeastRelevant chain).evidenceItems _ _).length
                  ≤ (removeLeastRelevant chain).evidenceItems.length + 1 :=
                    upsertItem_length_le _ _ _
                _ = chain.evidenceItems.length := hlen1
                _ ≤ cfg.maxEvidenceItems := hlen
            · intro p hp
              rcases upsertItem_mem _ _ _ p hp with h | h
              · rw [h]
                exact evidenceIdOf_ne_empty sourceId content
              · exact hkeys1 p h
            · exact hsteps1
          | some sid =>
            refine ⟨?_, ?_, ?_⟩
            · show (upsertItem (removeLeastRelevant chain).evidenceItems _ _).length ≤ _
              calc (upsertItem (removeLeastRelevant chain).evidenceItems _ _).length
                  ≤ (removeLeastRelevant chain).evidenceItems.length + 1 :=
                    upsertItem_length_le _ _ _
                _ = chain.evidenceItems.length := hlen1
                _ ≤ cfg.maxEvidenceItems := hlen
            · intro p hp
              rcases upsertItem_mem _ _ _ p hp with h | h
              · rw [h]
                exact evidenceIdOf_ne_empty sourceId content
              · exact hkeys1 p h
            · intro st hst
              rcases associateEvidenceToStep_mem _ _ _ st hst with h | ⟨st0, hst0, hni, heq⟩
              · exact hsteps1 st h
              · rw [heq]
                exact nodup_append_singleton (hsteps1 st0 hst0) hni
      · rw [if_neg hcap]
        have hlt : chain.evidenceItems.length < cfg.maxEvidenceItems :=
          lt_of_not_ge hcap
        split
        · exact ⟨hlen, hkeys, hsteps⟩
        · cases stepId with
          | none =>
            refine ⟨?_, ?_, ?_⟩
            · show (upsertItem chain.evidenceItems _ _).length ≤ _
              calc (upsertItem chain.evidenceItems _ _).length
                  ≤ chain.evidenceItems.length + 1 := upsertItem_length_le _ _ _
                _ ≤ cfg.maxEvidenceItems := hlt
            · intro p hp
              rcases upsertItem_mem _ _ _ p hp with h | h
              · rw [h]
                exact evidenceIdOf_ne_empty sourceId content
              · exact hkeys p h
            · exact hsteps
          | some sid =>
            refine ⟨?_, ?_, ?_⟩
            · show (upsertItem chain.evidenceItems _ _).length ≤ _
              calc (upsertItem chain.evidenceItems _ _).length
                  ≤ chain.evidenceItems.length + 1 := upsertItem_length_le _ _ _
                _ ≤ cfg.maxEvidenceItems := hlt
            · intro p hp
              rcases upsertItem_mem _ _ _ p hp with h | h
              · rw [h]
                exact evidenceIdOf_ne_empty sourceId content
              · exact hkeys p h
            · intro st hst
              rcases associateEvidenceToStep_mem _ _ _ st hst with h | ⟨st0, hst0, hni, heq⟩
              · exact hsteps st h
              · rw [heq]
                exact nodup_append_singleton (hsteps st0 hst0) hni

/-- Every tracker operation preserves the chain invariant. -/
theorem applyTrackerOp_preserves_inv (cfg : EvidenceConfig)
    (hmax : 1 ≤ cfg.maxEvidenceItems) (chain : EvidenceChain)
    (op : TrackerOp) (hInv : ChainInv cfg chain) :
    ChainInv cfg (applyTrackerOp cfg chain op) := by
  cases op with
  | addEv src content stype sid rel conf =>
    exact addEvidence_preserves_inv cfg hmax chain src content stype sid rel conf hInv
  | addStep descr rtype conf =>
    obtain ⟨hlen, hkeys, hsteps⟩ := hInv
    refine ⟨hlen, hkeys, ?_⟩
    intro st hst
    rcases List.mem_append.mp hst with h | h
    · exact hsteps st h
    · rw [List.mem_singleton.mp h]
      exact List.nodup_nil

/-- Any trace of tracker calls on a fresh chain keeps the invariant. -/
theorem runTrackerOps_inv (cfg : EvidenceConfig)
    (hmax : 1 ≤ cfg.maxEvidenceItems) (query : String) (ops : List TrackerOp) :
    ChainInv cfg (runTrackerOps cfg query ops) := by
  suffices h : ∀ (c : EvidenceChain), ChainInv cfg c →
      ChainInv cfg (ops.foldl (applyTrackerOp cfg) c) by
    refine h (emptyChain query) ?_
    refine ⟨by simp [emptyChain], by simp [emptyChain], by simp [emptyChain]⟩
  induction ops with
  | nil => intro c hc; exact hc
  | cons op rest ih =>
    intro c hc
    exact ih _ (applyTrackerOp_preserves_inv cfg hmax c op hc)

/-- Claim C3: on any chain reachable by a sequence of tracker calls from a
fresh chain (capacity at least one), the item map never exceeds the
configured maximum, and whenever the chain is non-empty the eviction routine
removes an item of globally minimal relevance and strips its id from every
reasoning step. -/
theorem evidence_capacity_and_eviction (cfg : EvidenceConfig)
    (hmax : 1 ≤ cfg.maxEvidenceItems) (query : String) (ops : List TrackerOp) :
    (runTrackerOps cfg query ops).evidenceItems.length ≤ cfg.maxEvidenceItems ∧
    ((runTrackerOps cfg query ops).evidenceItems ≠ [] →
      ∃ id ev, (id, ev) ∈ (runTrackerOps cfg query ops).evidenceItems ∧
        (∀ q ∈ (runTrackerOps cfg query ops).evidenceItems,
          ev.relevanceScore ≤ q.2.relevanceScore) ∧
        (removeLeastRelevant (runTrackerOps cfg query ops)).evidenceItems =
          (runTrackerOps cfg query ops).evidenceItems.eraseP (fun p => p.1 == id) ∧
        (removeLeastRelevant (runTrackerOps cfg query ops)).evidenceItems.length
            + 1 = (runTrackerOps cfg query ops).evidenceItems.length ∧
        ∀ st ∈ (removeLeastRelevant (runTrackerOps cfg query ops)).reasoningSteps,
          id ∉ st.evidenceIds) := by
  obtain ⟨hlen, hkeys, hsteps⟩ := runTrackerOps_inv cfg hmax query ops
  refine ⟨hlen, ?_⟩
  intro hne
  obtain ⟨id, ev, hmem, hmin, hitems, hstepsEq, hlen1⟩ :=
    removeLeastRelevant_spec (runTrackerOps cfg query ops) hne hkeys
  refine ⟨id, ev, hmem, hmin, hitems, hlen1, ?_⟩
  intro st hst
  rw [hstepsEq] at hst
  obtain ⟨st0, hst0, heq⟩ := List.mem_map.mp hst
  rw [← heq]
  exact (hsteps st0 hst0).not_mem_erase

set_option maxRecDepth 8000 in
/-- Witness for C3 on the default configuration and a three-call trace. -/
theorem evidence_capacity_and_eviction_witness :
    1 ≤ defaultEvidenceConfig.maxEvidenceItems ∧
    ((runTrackerOps defaultEvidenceConfig "q" sampleTrackerOps).evidenceItems.length ≤
      defaultEvidenceConfig.maxEvidenceItems ∧
    ((runTrackerOps defaultEvidenceConfig "q" sampleTrackerOps).evidenceItems ≠ [] →
      ∃ id ev,
        (id, ev) ∈ (runTrackerOps defaultEvidenceConfig "q" sampleTrackerOps).evidenceItems ∧
        (∀ q ∈ (runTrackerOps defaultEvidenceConfig "q" sampleTrackerOps).evidenceItems,
          ev.relevanceScore ≤ q.2.relevanceScore) ∧
        (removeLeastRelevant (runTrackerOps defaultEvidenceConfig "q" sampleTrackerOps)).evidenceItems =
          (runTrackerOps defaultEvidenceConfig "q" sampleTrackerOps).evidenceItems.eraseP
            (fun p => p.1 == id) ∧
        (removeLeastRelevant (runTrackerOps defaultEvidenceConfig "q" sampleTrackerOps)).evidenceItems.length
            + 1 =
          (runTrackerOps defaultEvidenceConfig "q" sampleTrackerOps).evidenceItems.length ∧
        ∀ st ∈ (removeLeastRelevant (runTrackerOps defaultEvidenceConfig "q" sampleTrackerOps)).reasoningSteps,
          id ∉ st.evidenceIds)) :=
  ⟨by norm_num [defaultEvidenceConfig],
    evidence_capacity_and_eviction defaultEvidenceConfig
      (by norm_num [defaultEvidenceConfig]) "q" sampleTrackerOps⟩

set_option maxRecDepth 8000 in
/-- Counterexample to C1: over a graph in which the seed has no neighbours,
all of the first `max_steps = 5` calls to `explore_next_step` return
`continue` (each with zero new nodes, leaving the depth at 0), so the path
does not reach status `completed` within `max_steps` calls. -/
theorem exploration_stalls_counterexample :
    exploreStatuses isolatedGraph isolatedGraph 5 isolatedStart =
      List.replicate 5 "continue" ∧
    "completed" ∉ exploreStatuses isolatedGraph isolatedGraph 5 isolatedStart := by
  constructor
  · rfl
  · rw [show exploreStatuses isolatedGraph isolatedGraph 5 isolatedStart =
        List.replicate 5 "continue" from rfl]
    decide

/-- Claim C1 as amended: `explore_next_step` returns status `completed`
exactly when the path's maximum node depth has already reached `max_steps`;
in every other case it returns `error` (empty node list) or `continue` —
including expansions that find no new frontier nodes — so repeated calls
reach `completed` only if the depth keeps growing. -/
theorem exploreNextStep_completed_iff
    (gqEntity gqDocument : String → ℕ → List GraphRow) (s : ExplorationState) :
    (exploreNextStep gqEntity gqDocument s).1.status = "completed" ↔
      s.maxSteps ≤ pathMaxDepth s.path.nodes := by
  unfold exploreNextStep
  by_cases h : s.maxSteps ≤ pathMaxDepth s.path.nodes
  · rw [if_pos h]
    simpa using h
  · rw [if_neg h]
    dsimp only
    split
    · constructor
      · intro hx
        have hx2 : "error" = "completed" := hx
        exact absurd hx2 (by decide)
      · intro hx
        exact absurd hx h
    · constructor
      · intro hx
        have hx2 : "continue" = "completed" := hx
        exact absurd hx2 (by decide)
      · intro hx
        exact absurd hx h

/-- Membership in the stable descending insertion is membership in the
inserted element or the list. -/
theorem mem_insertByRelevanceDesc (x m : ExplorationNode)
    (l : List ExplorationNode) :
    m ∈ insertByRelevanceDesc x l ↔ m = x ∨ m ∈ l := by
  induction l with
  | nil => simp [insertByRelevanceDesc]
  | cons y ys ih =>
    unfold insertByRelevanceDesc
    split
    · simp [List.mem_cons]
    · simp only [List.mem_cons, ih]
      tauto

/-- The stable descending sort does not change membership. -/
theorem mem_sortByRelevanceDesc (m : ExplorationNode)
    (l : List ExplorationNode) :
    m ∈ sortByRelevanceDesc l ↔ m ∈ l := by
  induction l with
  | nil => simp [sortByRelevanceDesc]
  | cons y ys ih =>
    unfold sortByRelevanceDesc
    rw [mem_insertByRelevanceDesc, ih, List.mem_cons]

/-- Claim C4, what the code actually computes: every node accepted by
`_filter_and_rank_nodes` carries the score
`raw * 0.7 + (overlap / |query words|) * 0.3` with **no** depth decay,
because the decay factor is raised to the node's `depth` field, which is
still 0 for every node `_explore_neighbors` builds (the depth is assigned
only after scoring, in `explore_next_step`); the claimed extra factor
`decay_factor ^ (frontier depth + 1)` is never applied. -/
theorem exploration_score_no_decay
    (relevanceThreshold decayFactor : ℚ) (query : String)
    (nodes : List ExplorationNode)
    (hq : pySplit (pyLower query) ≠ [])
    (hdepth : ∀ n ∈ nodes, n.depth = 0) :
    (∀ m ∈ filterAndRankNodes relevanceThreshold decayFactor query nodes,
      ∃ n ∈ nodes, relevanceThreshold ≤ n.relevanceScore ∧
        m.relevanceScore = n.relevanceScore * (7/10) +
          ((((pySplit (pyLower query)).filter
              (fun w => strOccursIn w (pyLower n.content))).length : ℚ) /
            ((pySplit (pyLower query)).length : ℚ)) * (3/10)) ∧
    (∀ (width : ℕ) (visited : List String)
       (gqEntity gqDocument : String → ℕ → List GraphRow)
       (node : ExplorationNode),
      ∀ m ∈ exploreNeighbors width visited gqEntity gqDocument node,
        m.depth = 0) := by
  constructor
  · intro m hm
    unfold filterAndRankNodes at hm
    rw [if_neg (by
      intro hc
      exact hq hc.2)] at hm
    rw [mem_sortByRelevanceDesc] at hm
    obtain ⟨n, hn, heq⟩ := List.mem_map.mp hm
    have hn2 : n ∈ nodes := List.mem_filter.mp hn |>.1
    have hthr : relevanceThreshold ≤ n.relevanceScore := by
      have := List.mem_filter.mp hn |>.2
      exact of_decide_eq_true this
    refine ⟨n, hn2, hthr, ?_⟩
    rw [← heq]
    dsimp only
    rw [hdepth n hn2]
    ring
  · intro width visited gqEntity gqDocument node m hm
    unfold exploreNeighbors at hm
    split at hm
    · obtain ⟨r, _, heq⟩ := List.mem_map.mp hm
      rw [← heq]
    · split at hm
      · obtain ⟨r, _, heq⟩ := List.mem_map.mp hm
        rw [← heq]
      · cases hm

/-- Witness for C4: a one-word query and a single raw neighbour of rank 0.8
at the dataclass-default depth 0. -/
theorem exploration_score_no_decay_witness :
    pySplit (pyLower "alpha") ≠ [] ∧
    (∀ n ∈ [rawNeighborB], n.depth = 0) ∧
    ((∀ m ∈ filterAndRankNodes (3/5) (9/10) "alpha" [rawNeighborB],
      ∃ n ∈ [rawNeighborB], (3/5 : ℚ) ≤ n.relevanceScore ∧
        m.relevanceScore = n.relevanceScore * (7/10) +
          ((((pySplit (pyLower "alpha")).filter
              (fun w => strOccursIn w (pyLower n.content))).length : ℚ) /
            ((pySplit (pyLower "alpha")).length : ℚ)) * (3/10)) ∧
    (∀ (width : ℕ) (visited : List String)
       (gqEntity gqDocument : String → ℕ → List GraphRow)
       (node : ExplorationNode),
      ∀ m ∈ exploreNeighbors width visited gqEntity gqDocument node,
        m.depth = 0)) :=
  ⟨by decide, by decide,
    exploration_score_no_decay (3/5) (9/10) "alpha" _ (by decide) (by decide)⟩

/-- After replacing the key's entry, `find?` for that key returns the new
entry. -/
theorem find?_map_replace {β : Type} (l : List (String × β)) (key : String)
    (v : β) (hany : l.any (fun p => p.1 == key) = true) :
    (l.map (fun p => if p.1 == key then (key, v) else p)).find?
      (fun p => p.1 == key) = some (key, v) := by
  induction l with
  | nil => simp at hany
  | cons p rest ih =>
    rw [List.map_cons]
    by_cases hp : p.1 == key
    · rw [if_pos hp]
      exact List.find?_cons_of_pos _ (by simp)
    · rw [if_neg hp]
      rw [List.find?_cons_of_neg _ (by simpa using hp)]
      apply ih
      rw [List.any_cons] at hany
      simpa [hp] using hany

/-- `find?` after an upsert returns the written entry. -/
theorem assocUpsert_find? {β : Type} (l : List (String × β)) (key : String)
    (v : β) :
    (assocUpsert l key v).find? (fun p => p.1 == key) = some (key, v) := by
  unfold assocUpsert
  split
  · next hany => exact find?_map_replace l key v hany
  · next hany =>
    rw [List.find?_append]
    have hnone : l.find? (fun p => p.1 == key) = none :=
      List.find?_eq_none.mpr (fun x hx hpx =>
        hany (List.any_eq_true.mpr ⟨x, hx, hpx⟩))
    rw [hnone]
    simp [List.find?]

/-- The memory tier after `set`: a read at time `t` returns the value while
`t ≤ created_at + ttl` and misses afterwards. -/
theorem memGet_memSet_fst {α : Type} (m : MemCache α) (key : String) (v : α)
    (ttl : Option ℤ) (t0 t : ℚ) :
    (memGet t (memSet t0 m key v ttl) key).1 =
      if t0 + ((effectiveTtl ttl m.defaultTtl : ℤ) : ℚ) < t then none
      else some v := by
  have hfind : (memSet t0 m key v ttl).cache.find? (fun p => p.1 == key) =
      some (key, { value := v, createdAt := t0, ttl := some (effectiveTtl ttl m.defaultTtl) }) := by
    unfold memSet
    exact assocUpsert_find? _ _ _
  have hexp : memIsExpired t (memSet t0 m key v ttl) key =
      decide (t0 + ((effectiveTtl ttl m.defaultTtl : ℤ) : ℚ) < t) := by
    unfold memIsExpired
    rw [hfind]
  unfold memGet
  rw [hfind]
  dsimp only
  rw [hexp]
  by_cases hlt : t0 + ((effectiveTtl ttl m.defaultTtl : ℤ) : ℚ) < t
  · rw [if_pos (by simpa using hlt), if_pos hlt]
  · rw [if_neg (by simpa using hlt), if_neg hlt]

/-- The disk tier after `set`: a read at time `t` returns the value while
`t ≤ mtime + ttl` and misses afterwards. -/
theorem diskGet_diskSet_fst {α : Type} (d : DiskCache α) (key : String)
    (v : α) (ttl : Option ℤ) (t0 t : ℚ) :
    (diskGet t (diskSet t0 d key v ttl) key).1 =
      if t0 + ((effectiveTtl ttl d.defaultTtl : ℤ) : ℚ) < t then none
      else some v := by
  have hfind : (diskSet t0 d key v ttl).files.find? (fun p => p.1 == key) =
      some (key, { value := v, ttl := effectiveTtl ttl d.defaultTtl, createdAt := t0, mtime := t0 }) := by
    unfold diskSet
    exact assocUpsert_find? _ _ _
  unfold diskGet
  rw [hfind]
  dsimp only
  by_cases hlt : t0 + ((effectiveTtl ttl d.defaultTtl : ℤ) : ℚ) < t
  · rw [if_pos hlt, if_pos hlt]
  · rw [if_neg hlt, if_neg hlt]

/-- Round-trip behaviour of the tiered cache after a write: a read at time
`t` of a key set at time `t0` yields the stored value exactly as long as
`t ≤ t0 + T`, where `T` is the effective ttl, and `None` afterwards. -/
theorem cache_roundTrip_aux {α : Type} (c : TieredCache α) (key : String)
    (v : α) (ttl : Option ℤ) (t0 t : ℚ)
    (hd : c.memory.defaultTtl = c.disk.defaultTtl) :
    (cacheGet t (cacheSet t0 c key v ttl) key).1 =
      if t ≤ t0 + ((effectiveTtl ttl c.memory.defaultTtl : ℤ) : ℚ) then some v
      else none := by
  rcases hmg : memGet t (memSet t0 c.memory key v ttl) key with ⟨ov, m2⟩
  have hov : ov = if t0 + ((effectiveTtl ttl c.memory.defaultTtl : ℤ) : ℚ) < t
      then none else some v := by
    have h := memGet_memSet_fst c.memory key v ttl t0 t
    rw [hmg] at h
    exact h
  unfold cacheGet cacheSet
  dsimp only
  rw [hmg]
  by_cases hlt : t0 + ((effectiveTtl ttl c.memory.defaultTtl : ℤ) : ℚ) < t
  · rw [if_pos hlt] at hov
    subst hov
    dsimp only
    rcases hdg : diskGet t (diskSet t0 c.disk key v ttl) key with ⟨od, d2⟩
    have hod : od = none := by
      have h := diskGet_diskSet_fst c.disk key v ttl t0 t
      rw [hdg] at h
      dsimp only at h
      rw [h, if_pos (by rw [← hd]; exact hlt)]
    subst hod
    dsimp only
    rw [if_neg (not_le.mpr hlt)]
  · rw [if_neg hlt] at hov
    subst hov
    dsimp only
    rw [if_pos (not_lt.mp hlt)]

/-- Claim C5 as amended: after `CacheManager.set(k, v, ttl)` at time `t0`, a
`get(k)` at time `t` returns `v` iff `t ≤ t0 + T` where `T` is the effective
ttl (the given ttl when nonzero, else the backend default), and `None` once
`t > t0 + T`.  In particular the immediate round-trip holds whenever the
effective ttl is nonnegative; a negative ttl expires the entry at the write
instant. -/
theorem cacheSet_get_roundtrip {α : Type} (c : TieredCache α) (key : String)
    (v : α) (ttl : Option ℤ) (t0 t : ℚ)
    (hd : c.memory.defaultTtl = c.disk.defaultTtl) :
    (cacheGet t (cacheSet t0 c key v ttl) key).1 =
      if t ≤ t0 + ((effectiveTtl ttl c.memory.defaultTtl : ℤ) : ℚ) then some v
      else none :=
  cache_roundTrip_aux c key v ttl t0 t hd

/-- Witness for C5: a set with ttl 100 at time 0 read back at time 50. -/
theorem cacheSet_get_roundtrip_witness :
    (emptyTieredCache ℤ).memory.defaultTtl = (emptyTieredCache ℤ).disk.defaultTtl ∧
    (cacheGet 50 (cacheSet 0 (emptyTieredCache ℤ) "k" 5 (some 100)) "k").1 =
      if (50 : ℚ) ≤ 0 +
          ((effectiveTtl (some 100) (emptyTieredCache ℤ).memory.defaultTtl : ℤ) : ℚ)
      then some 5 else none :=
  ⟨rfl, cacheSet_get_roundtrip (emptyTieredCache ℤ) "k" 5 (some 100) 0 50 rfl⟩

/-- Counterexample to C5: with ttl `-1` the entry is expired at the very
instant it is written, so the immediate `get` at the write time returns
`None`, not the stored value. -/
theorem cache_negative_ttl_counterexample :
    (cacheGet 0 (cacheSet 0 (emptyTieredCache ℤ) "k" 5 (some (-1))) "k").1 = none ∧
    (none : Option ℤ) ≠ some 5 := by
  constructor
  · rw [cache_roundTrip_aux (emptyTieredCache ℤ) "k" 5 (some (-1)) 0 0 rfl]
    rw [show effectiveTtl (some (-1)) (emptyTieredCache ℤ).memory.defaultTtl = -1 from rfl]
    rw [if_neg (by norm_num)]
  · intro h
    cases h

/-- One below-budget `generate_next_query` call against an LLM that replies
in time, yields nothing extractable and never sounds ready: the call returns
`continue_thinking` and appends exactly one step, leaving the engine
configuration unchanged. -/
theorem gnq_step_continue (llm : List String → Option LLMReply)
    (extractRaw : String → List String)
    (hsome : ∀ msgs, llm msgs ≠ none)
    (hgood : ∀ msgs r, llm msgs = some r →
      r.elapsed ≤ 30 ∧ extractRaw r.content = [] ∧ isAnswerReady r.content = false)
    (s : EngineState) (sess : ThinkingSession)
    (hsess : s.session = some sess) (htimeout : s.timeout = 30)
    (hlt : sess.steps.length < s.maxDepth) :
    (generateNextQuery llm extractRaw s).1.status = "continue_thinking" ∧
    ∃ sess2, (generateNextQuery llm extractRaw s).2.session = some sess2 ∧
      sess2.steps.length = sess.steps.length + 1 ∧
      (generateNextQuery llm extractRaw s).2.maxDepth = s.maxDepth ∧
      (generateNextQuery llm extractRaw s).2.timeout = s.timeout := by
  unfold generateNextQuery
  rw [hsess]
  dsimp only
  rw [if_neg (not_le.mpr hlt)]
  rcases hllm : llm s.msgHistory with _ | r
  · exact absurd hllm (hsome s.msgHistory)
  · obtain ⟨helapsed, hext, hready⟩ := hgood s.msgHistory r hllm
    dsimp only
    rw [if_neg (by rw [htimeout]; exact not_lt.mpr helapsed)]
    have hq : extractQueriesE extractRaw s.maxQueriesPerStep r.content = [] := by
      unfold extractQueriesE
      rw [hext]
      simp
    dsimp only
    rw [hq, hready]
    constructor
    · rw [if_neg (fun h => h rfl)]
      rfl
    · refine ⟨_, rfl, ?_, rfl, rfl⟩
      rw [List.length_append]
      rfl

/-- A `generate_next_query` call on a session that has used up its depth
budget returns `answer_ready` without touching the state. -/
theorem gnq_answer_ready (llm : List String → Option LLMReply)
    (extractRaw : String → List String) (s : EngineState)
    (sess : ThinkingSession) (hsess : s.session = some sess)
    (hge : s.maxDepth ≤ sess.steps.length) :
    (generateNextQuery llm extractRaw s).1.status = "answer_ready" := by
  unfold generateNextQuery
  rw [hsess]
  dsimp only
  rw [if_pos hge]

/-- Against an LLM that never sounds ready and never yields queries, a
session with `max_depth = 3` produces `continue_thinking` on the first three
calls and `answer_ready` on the fourth. -/
theorem gnq_run_aux (llm : List String → Option LLMReply)
    (extractRaw : String → List String) (query : String)
    (hsome : ∀ msgs, llm msgs ≠ none)
    (hgood : ∀ msgs r, llm msgs = some r →
      r.elapsed ≤ 30 ∧ extractRaw r.content = [] ∧ isAnswerReady r.content = false) :
    gnqStatuses llm extractRaw 4 (createSession 3 query) =
      ["continue_thinking", "continue_thinking", "continue_thinking",
       "answer_ready"] := by
  have hstep := gnq_step_continue llm extractRaw hsome hgood
  have h0 : (createSession 3 query).session = some
      { sessionId := "thinking_0", query := query, steps := [],
        currentStep := 0, status := "active" } := rfl
  obtain ⟨hst1, sess1, hsess1, hlen1, hmd1, hto1⟩ :=
    hstep (createSession 3 query) _ h0 rfl (by simp [createSession])
  obtain ⟨hst2, sess2, hsess2, hlen2, hmd2, hto2⟩ :=
    hstep _ _ hsess1 (by rw [hto1]; rfl) (by
      rw [hlen1, hmd1]
      simp [createSession])
  obtain ⟨hst3, sess3, hsess3, hlen3, hmd3, hto3⟩ :=
    hstep _ _ hsess2 (by rw [hto2, hto1]; rfl) (by
      rw [hlen2, hlen1, hmd2, hmd1]
      simp [createSession])
  have hst4 := gnq_answer_ready llm extractRaw _ _ hsess3 (by
    rw [hmd3, hmd2, hmd1, hlen3, hlen2, hlen1]
    simp [createSession])
  simp only [gnqStatuses]
  rw [hst1, hst2, hst3, hst4]

/-- The statuses of the first `k` calls are a prefix of those of `k + n`
calls. -/
theorem gnqStatuses_take_eq (llm : List String → Option LLMReply)
    (extractRaw : String → List String) :
    ∀ (k n : ℕ) (s : EngineState),
      gnqStatuses llm extractRaw k s =
        (gnqStatuses llm extractRaw (k + n) s).take k := by
  intro k
  induction k with
  | zero => intro n s; simp [gnqStatuses]
  | succ k ih =>
    intro n s
    rw [show k + 1 + n = (k + n) + 1 from by omega]
    simp only [gnqStatuses]
    rw [List.take_succ_cons]
    rw [← ih n]

/-- Counterexample to C2: with `max_depth = 3` and an injected LLM that never
signals readiness and never yields queries, the first three
`generate_next_query` calls all return `continue_thinking` — `answer_ready`
is not reached by the 3rd call (it first appears on call 4). -/
theorem thinking_budget_counterexample :
    gnqStatuses silentLLM noExtraction 3 (createSession 3 "q") =
      ["continue_thinking", "continue_thinking", "continue_thinking"] ∧
    "answer_ready" ∉ gnqStatuses silentLLM noExtraction 3 (createSession 3 "q") := by
  have h4 := gnq_run_aux silentLLM noExtraction "q"
    (fun msgs => by simp [silentLLM])
    (fun msgs r h => by
      have h2 : ({ content := "思考中", elapsed := 0 } : LLMReply) = r := by
        injection h
      rw [← h2]
      exact ⟨by norm_num, rfl, by decide⟩)
  have h3 : gnqStatuses silentLLM noExtraction 3 (createSession 3 "q") =
      ["continue_thinking", "continue_thinking", "continue_thinking"] := by
    rw [gnqStatuses_take_eq silentLLM noExtraction 3 1, h4]
    rfl
  exact ⟨h3, by rw [h3]; decide⟩

/-- Claim C2 as amended: the session terminates with `answer_ready` exactly
when `len(steps) ≥ max_depth` holds at call time; with `max_depth = 3` and
an LLM that never signals readiness and never yields queries this happens on
the 4th call to `generate_next_query`, one call after the budget is
exhausted, the first three calls returning `continue_thinking`. -/
theorem generateNextQuery_budget (llm : List String → Option LLMReply)
    (extractRaw : String → List String) (query : String)
    (hsome : ∀ msgs, llm msgs ≠ none)
    (hgood : ∀ msgs r, llm msgs = some r →
      r.elapsed ≤ 30 ∧ extractRaw r.content = [] ∧ isAnswerReady r.content = false) :
    (∀ (s : EngineState) (sess : ThinkingSession), s.session = some sess →
      s.maxDepth ≤ sess.steps.length →
      (generateNextQuery llm extractRaw s).1.status = "answer_ready") ∧
    gnqStatuses llm extractRaw 4 (createSession 3 query) =
      ["continue_thinking", "continue_thinking", "continue_thinking",
       "answer_ready"] :=
  ⟨fun s sess hsess hge => gnq_answer_ready llm extractRaw s sess hsess hge,
   gnq_run_aux llm extractRaw query hsome hgood⟩

/-- Witness for C2's amended claim at the concrete silent LLM. -/
theorem generateNextQuery_budget_witness :
    (∀ msgs, silentLLM msgs ≠ none) ∧
    (∀ msgs r, silentLLM msgs = some r →
      r.elapsed ≤ 30 ∧ noExtraction r.content = [] ∧
        isAnswerReady r.content = false) ∧
    ((∀ (s : EngineState) (sess : ThinkingSession), s.session = some sess →
      s.maxDepth ≤ sess.steps.length →
      (generateNextQuery silentLLM noExtraction s).1.status = "answer_ready") ∧
    gnqStatuses silentLLM noExtraction 4 (createSession 3 "帮我分析这个问题") =
      ["continue_thinking", "continue_thinking", "continue_thinking",
       "answer_ready"]) := by
  have hsome : ∀ msgs, silentLLM msgs ≠ none := fun msgs => by simp [silentLLM]
  have hgood : ∀ msgs r, silentLLM msgs = some r →
      r.elapsed ≤ 30 ∧ noExtraction r.content = [] ∧
        isAnswerReady r.content = false := fun msgs r h => by
    have h2 : ({ content := "思考中", elapsed := 0 } : LLMReply) = r := by
      injection h
    rw [← h2]
    exact ⟨by norm_num, rfl, by decide⟩
  exact ⟨hsome, hgood,
    generateNextQuery_budget silentLLM noExtraction "帮我分析这个问题" hsome hgood⟩

/-- Claim C7, what the code actually does: when every sub-check chain
returns text that cannot be parsed as JSON, `validate_answer` still returns
a comprehensive `ValidationResult`, but the sub-scores that enter the
weighted sum are all 0.0 — the parse fallback stores its neutral 0.5 under
the key `score`, which `validate_answer` never reads (it reads
`accuracy_score` / `completeness_score` / `consistency_score` with default
0.0) — so the overall score is 0, not the neutral 0.5 blend. -/
theorem validateAnswer_parse_failure
    (parseJson : String → Option (List (String × ℚ))) (t : String) (thr : ℚ)
    (hp : parseJson t = none) :
    (validateAnswer thr parseJson (.success t) (.success t)
      (.success t)).confidenceScore = 0 ∧
    (validateAnswer thr parseJson (.success t) (.success t)
      (.success t)).metadata =
      [("accuracy_score", 0), ("completeness_score", 0),
       ("consistency_score", 0)] ∧
    (validateAnswer thr parseJson (.success t) (.success t)
      (.success t)).validationType = "comprehensive" := by
  have hacc : validateAccuracy parseJson (.success t) = [("score", 1/2)] := by
    unfold validateAccuracy parseValidationResult
    dsimp only
    rw [hp]
  have hcomp : validateCompleteness parseJson (.success t) = [("score", 1/2)] := by
    unfold validateCompleteness parseValidationResult
    dsimp only
    rw [hp]
  have hcons : validateConsistency parseJson (.success t) = [("score", 1/2)] := by
    unfold validateConsistency parseValidationResult
    dsimp only
    rw [hp]
  have hg1 : getNumField [("score", (1 : ℚ)/2)] "accuracy_score" 0 = 0 := rfl
  have hg2 : getNumField [("score", (1 : ℚ)/2)] "completeness_score" 0 = 0 := rfl
  have hg3 : getNumField [("score", (1 : ℚ)/2)] "consistency_score" 0 = 0 := rfl
  unfold validateAnswer
  rw [hacc, hcomp, hcons]
  dsimp only
  rw [hg1, hg2, hg3]
  refine ⟨by norm_num, rfl, rfl⟩

/-- Witness for C7 at a concrete unparsable response text. -/
theorem validateAnswer_parse_failure_witness :
    ((fun _ : String => (none : Option (List (String × ℚ)))) "这不是JSON" = none) ∧
    ((validateAnswer (4/5) (fun _ => none) (.success "这不是JSON")
        (.success "这不是JSON") (.success "这不是JSON")).confidenceScore = 0 ∧
     (validateAnswer (4/5) (fun _ => none) (.success "这不是JSON")
        (.success "这不是JSON") (.success "这不是JSON")).metadata =
       [("accuracy_score", 0), ("completeness_score", 0),
        ("consistency_score", 0)] ∧
     (validateAnswer (4/5) (fun _ => none) (.success "这不是JSON")
        (.success "这不是JSON") (.success "这不是JSON")).validationType =
       "comprehensive") :=
  ⟨rfl, validateAnswer_parse_failure (fun _ => none) "这不是JSON" (4/5) rfl⟩

end GraphRag
